import Mathlib

/-!
Shallow embedding of the Fintribe storage layer (`server/storage.ts`) and the
REST route handlers (`server/routes.ts`) that the verified properties are about.

The storage module defines an interface `IStorage` with two implementations:
`MemStorage` (JavaScript `Map`s plus auto-incrementing counters, modelled here
as the state type `Mem` over association lists) and `DatabaseStorage`
(a relational store, modelled here as the state type `DB` over row lists with
serial id counters).  JavaScript `string.toLowerCase()` on the ASCII wallet
addresses is modelled by `lowerStr`; timestamps (`new Date()` / SQL
`timestamp`) are modelled as natural numbers supplied explicitly as a `now`
argument to the operations that read the clock.
-/

namespace Fintribe

/-- ASCII lowercasing of one character, as `toLowerCase` acts on the
hexadecimal wallet addresses stored by this application. -/
def lowerChar (c : Char) : Char :=
  if 65 ≤ c.toNat ∧ c.toNat ≤ 90 then Char.ofNat (c.toNat + 32) else c

/-- Model of JavaScript `s.toLowerCase()` for ASCII strings. -/
def lowerStr (s : String) : String :=
  ⟨s.data.map lowerChar⟩

/-- Lookup in an association list, the model of `Map.get`. -/
def mget {K V : Type} [DecidableEq K] : List (K × V) → K → Option V
  | [], _ => none
  | (k2, v) :: rest, k => if k2 = k then some v else mget rest k

/-- Insert-or-replace in an association list, the model of `Map.set`. -/
def mset {K V : Type} [DecidableEq K] : List (K × V) → K → V → List (K × V)
  | [], k, v => [(k, v)]
  | (k2, v2) :: rest, k, v =>
      if k2 = k then (k, v) :: rest else (k2, v2) :: mset rest k v

theorem mget_mset {K V : Type} [DecidableEq K] (m : List (K × V)) (k k' : K) (v : V) :
    mget (mset m k v) k' = if k = k' then some v else mget m k' := by
  induction m with
  | nil => by_cases h : k = k' <;> simp [mget, mset, h]
  | cons hd tl ih =>
    obtain ⟨k2, v2⟩ := hd
    by_cases h2 : k2 = k
    · subst h2
      by_cases h3 : k2 = k' <;> simp [mset, mget, h3]
    · by_cases h3 : k2 = k'
      · subst h3
        have hne : ¬ k = k2 := fun h => h2 h.symm
        simp [mset, if_neg h2, mget, hne]
      · simp [mset, if_neg h2, mget, if_neg h3, ih]

theorem mget_mset_self {K V : Type} [DecidableEq K] (m : List (K × V)) (k : K) (v : V) :
    mget (mset m k v) k = some v := by
  simp [mget_mset]

theorem mset_mset_same {K V : Type} [DecidableEq K] (m : List (K × V)) (k : K) (a b : V) :
    mset (mset m k a) k b = mset m k b := by
  induction m with
  | nil => simp [mset]
  | cons hd tl ih =>
    obtain ⟨k2, v2⟩ := hd
    by_cases h2 : k2 = k
    · subst h2
      simp [mset]
    · simp [mset, if_neg h2, ih]

/-- Row of the `users` table / value of the `MemStorage.users` map. -/
structure User where
  id : Nat
  address : String
  groupId : Option Nat
  totalDeposits : Int
  creditScore : Int
  lastDepositTime : Nat
  registered : Bool
  isDefaulted : Bool
  deriving DecidableEq

/-- Insertable subset of `User` (`insertUserSchema` omits `id`). -/
structure InsertUser where
  address : String
  groupId : Option Nat
  totalDeposits : Int
  creditScore : Int
  lastDepositTime : Nat
  registered : Bool
  isDefaulted : Bool
  deriving DecidableEq

/-- Row of the `groups` table. -/
structure Group where
  id : Nat
  name : String
  admin : String
  totalDeposits : Int
  totalLoaned : Int
  deriving DecidableEq

/-- Insertable subset of `Group` (`insertGroupSchema` omits `id`,
`totalDeposits`, `totalLoaned`). -/
structure InsertGroup where
  name : String
  admin : String
  deriving DecidableEq

/-- Row of the `group_members` join table. -/
structure GroupMember where
  id : Nat
  groupId : Nat
  memberAddress : String
  deriving DecidableEq

/-- Insertable subset of `GroupMember`. -/
structure InsertGroupMember where
  groupId : Nat
  memberAddress : String
  deriving DecidableEq

/-- Row of the `loans` table. -/
structure Loan where
  id : Nat
  borrowerAddress : String
  amount : Int
  dueDate : Nat
  repaid : Bool
  approved : Bool
  defaulted : Bool
  createdAt : Nat
  deriving DecidableEq

/-- Insertable subset of `Loan` (`insertLoanSchema` omits `id`, `createdAt`). -/
structure InsertLoan where
  borrowerAddress : String
  amount : Int
  dueDate : Nat
  repaid : Bool
  approved : Bool
  defaulted : Bool
  deriving DecidableEq

/-- Row of the `guarantors` table. -/
structure Guarantor where
  id : Nat
  loanId : Nat
  guarantorAddress : String
  approved : Bool
  deriving DecidableEq

/-- Insertable subset of `Guarantor`. -/
structure InsertGuarantor where
  loanId : Nat
  guarantorAddress : String
  approved : Bool
  deriving DecidableEq

/-- Row of the `proposals` table. -/
structure Proposal where
  id : Nat
  groupId : Nat
  description : String
  votesYes : Int
  votesNo : Int
  deadline : Nat
  executed : Bool
  createdAt : Nat
  deriving DecidableEq

/-- Insertable subset of `Proposal` (`insertProposalSchema` omits `id`,
`votesYes`, `votesNo`, `executed`, `createdAt`). -/
structure InsertProposal where
  groupId : Nat
  description : String
  deadline : Nat
  deriving DecidableEq

/-- Row of the `votes` table. -/
structure Vote where
  id : Nat
  proposalId : Nat
  voterAddress : String
  vote : Bool
  deriving DecidableEq

/-- Insertable subset of `Vote`. -/
structure InsertVote where
  proposalId : Nat
  voterAddress : String
  vote : Bool
  deriving DecidableEq

/-- Row of the `activities` table. -/
structure Activity where
  id : Nat
  groupId : Nat
  userAddress : String
  activityType : String
  description : String
  timestamp : Nat
  deriving DecidableEq

/-- Insertable subset of `Activity` (`insertActivitySchema` omits `id`,
`timestamp`). -/
structure InsertActivity where
  groupId : Nat
  userAddress : String
  activityType : String
  description : String
  deriving DecidableEq

/-- Model of TypeScript `Partial<User>`: each field optionally present. -/
structure UserPatch where
  id : Option Nat := none
  address : Option String := none
  groupId : Option (Option Nat) := none
  totalDeposits : Option Int := none
  creditScore : Option Int := none
  lastDepositTime : Option Nat := none
  registered : Option Bool := none
  isDefaulted : Option Bool := none
  deriving DecidableEq

/-- JavaScript object spread merge for users. -/
def mergeUser (u : User) (d : UserPatch) : User where
  id := d.id.getD u.id
  address := d.address.getD u.address
  groupId := d.groupId.getD u.groupId
  totalDeposits := d.totalDeposits.getD u.totalDeposits
  creditScore := d.creditScore.getD u.creditScore
  lastDepositTime := d.lastDepositTime.getD u.lastDepositTime
  registered := d.registered.getD u.registered
  isDefaulted := d.isDefaulted.getD u.isDefaulted

/-- Model of TypeScript `Partial<Group>`. -/
structure GroupPatch where
  id : Option Nat := none
  name : Option String := none
  admin : Option String := none
  totalDeposits : Option Int := none
  totalLoaned : Option Int := none
  deriving DecidableEq

/-- JavaScript object spread merge for groups. -/
def mergeGroup (g : Group) (d : GroupPatch) : Group where
  id := d.id.getD g.id
  name := d.name.getD g.name
  admin := d.admin.getD g.admin
  totalDeposits := d.totalDeposits.getD g.totalDeposits
  totalLoaned := d.totalLoaned.getD g.totalLoaned

/-- Model of TypeScript `Partial<Loan>`. -/
structure LoanPatch where
  id : Option Nat := none
  borrowerAddress : Option String := none
  amount : Option Int := none
  dueDate : Option Nat := none
  repaid : Option Bool := none
  approved : Option Bool := none
  defaulted : Option Bool := none
  createdAt : Option Nat := none
  deriving DecidableEq

/-- JavaScript object spread merge for loans. -/
def mergeLoan (l : Loan) (d : LoanPatch) : Loan where
  id := d.id.getD l.id
  borrowerAddress := d.borrowerAddress.getD l.borrowerAddress
  amount := d.amount.getD l.amount
  dueDate := d.dueDate.getD l.dueDate
  repaid := d.repaid.getD l.repaid
  approved := d.approved.getD l.approved
  defaulted := d.defaulted.getD l.defaulted
  createdAt := d.createdAt.getD l.createdAt

/-- Model of TypeScript `Partial<Proposal>`. -/
structure ProposalPatch where
  id : Option Nat := none
  groupId : Option Nat := none
  description : Option String := none
  votesYes : Option Int := none
  votesNo : Option Int := none
  deadline : Option Nat := none
  executed : Option Bool := none
  createdAt : Option Nat := none
  deriving DecidableEq

/-- JavaScript object spread merge for proposals. -/
def mergeProposal (p : Proposal) (d : ProposalPatch) : Proposal where
  id := d.id.getD p.id
  groupId := d.groupId.getD p.groupId
  description := d.description.getD p.description
  votesYes := d.votesYes.getD p.votesYes
  votesNo := d.votesNo.getD p.votesNo
  deadline := d.deadline.getD p.deadline
  executed := d.executed.getD p.executed
  createdAt := d.createdAt.getD p.createdAt

/-- The `currentIds` record of `MemStorage` (and, reused, the serial id
counters of the relational store). -/
structure Ids where
  user : Nat
  group : Nat
  groupMember : Nat
  loan : Nat
  guarantor : Nat
  proposal : Nat
  vote : Nat
  activity : Nat
  deriving DecidableEq

/-- State of `MemStorage`: one association list per JavaScript `Map` field. -/
structure Mem where
  users : List (String × User)
  groups : List (Nat × Group)
  groupMembers : List (Nat × List GroupMember)
  loans : List (Nat × Loan)
  loansByBorrower : List (String × List Nat)
  guarantors : List (Nat × List Guarantor)
  proposals : List (Nat × Proposal)
  proposalsByGroup : List (Nat × List Nat)
  votes : List (Nat × List Vote)
  activities : List (Nat × List Activity)
  currentIds : Ids
  deriving DecidableEq

/-- The state built by the `MemStorage` constructor: empty maps, all
counters at 1. -/
def Mem.empty : Mem where
  users := []
  groups := []
  groupMembers := []
  loans := []
  loansByBorrower := []
  guarantors := []
  proposals := []
  proposalsByGroup := []
  votes := []
  activities := []
  currentIds := ⟨1, 1, 1, 1, 1, 1, 1, 1⟩

/-- `MemStorage.getUser`. -/
def Mem.getUser (s : Mem) (address : String) : Option User :=
  mget s.users (lowerStr address)

/-- `MemStorage.createUser`. -/
def Mem.createUser (s : Mem) (userData : InsertUser) : User × Mem :=
  let id := s.currentIds.user
  let address := lowerStr userData.address
  let user : User :=
    { id := id, address := address, groupId := userData.groupId,
      totalDeposits := userData.totalDeposits, creditScore := userData.creditScore,
      lastDepositTime := userData.lastDepositTime, registered := userData.registered,
      isDefaulted := userData.isDefaulted }
  (user, { s with users := mset s.users address user,
                  currentIds := { s.currentIds with user := id + 1 } })

/-- `MemStorage.updateUser`. -/
def Mem.updateUser (s : Mem) (address : String) (data : UserPatch) :
    Option User × Mem :=
  match s.getUser address with
  | none => (none, s)
  | some user =>
      let updatedUser := mergeUser user data
      (some updatedUser,
       { s with users := mset s.users (lowerStr address) updatedUser })

/-- `MemStorage.getGroup`. -/
def Mem.getGroup (s : Mem) (id : Nat) : Option Group :=
  mget s.groups id

/-- `MemStorage.addGroupMember`. -/
def Mem.addGroupMember (s : Mem) (memberData : InsertGroupMember) :
    GroupMember × Mem :=
  let id := s.currentIds.groupMember
  let member : GroupMember :=
    { id := id, groupId := memberData.groupId,
      memberAddress := memberData.memberAddress }
  let members := (mget s.groupMembers memberData.groupId).getD []
  (member,
   { s with groupMembers := mset s.groupMembers memberData.groupId (members ++ [member]),
            currentIds := { s.currentIds with groupMember := id + 1 } })

/-- `MemStorage.createGroup`: stores the group, initialises its member and
proposal lists, then adds the admin as the first member. -/
def Mem.createGroup (s : Mem) (groupData : InsertGroup) : Group × Mem :=
  let id := s.currentIds.group
  let group : Group :=
    { id := id, name := groupData.name, admin := groupData.admin,
      totalDeposits := 0, totalLoaned := 0 }
  let s1 : Mem :=
    { s with groups := mset s.groups id group,
             groupMembers := mset s.groupMembers id [],
             proposalsByGroup := mset s.proposalsByGroup id [],
             currentIds := { s.currentIds with group := id + 1 } }
  let r := s1.addGroupMember { groupId := id, memberAddress := groupData.admin }
  (group, r.2)

/-- `MemStorage.updateGroup`. -/
def Mem.updateGroup (s : Mem) (id : Nat) (data : GroupPatch) :
    Option Group × Mem :=
  match s.getGroup id with
  | none => (none, s)
  | some group =>
      let updatedGroup := mergeGroup group data
      (some updatedGroup, { s with groups := mset s.groups id updatedGroup })

/-- `MemStorage.isGroupMember`: case-insensitive membership test. -/
def Mem.isGroupMember (s : Mem) (groupId : Nat) (address : String) : Bool :=
  ((mget s.groupMembers groupId).getD []).any
    (fun m => lowerStr m.memberAddress == lowerStr address)

/-- `MemStorage.getLoan`. -/
def Mem.getLoan (s : Mem) (id : Nat) : Option Loan :=
  mget s.loans id

/-- `MemStorage.createLoan` (`now` models `new Date()`). -/
def Mem.createLoan (s : Mem) (now : Nat) (loanData : InsertLoan) : Loan × Mem :=
  let id := s.currentIds.loan
  let loan : Loan :=
    { id := id, borrowerAddress := loanData.borrowerAddress,
      amount := loanData.amount, dueDate := loanData.dueDate,
      repaid := loanData.repaid, approved := loanData.approved,
      defaulted := loanData.defaulted, createdAt := now }
  let borrower := lowerStr loanData.borrowerAddress
  let loanIds := (mget s.loansByBorrower borrower).getD []
  (loan,
   { s with loans := mset s.loans id loan,
            loansByBorrower := mset s.loansByBorrower borrower (loanIds ++ [id]),
            guarantors := mset s.guarantors id [],
            currentIds := { s.currentIds with loan := id + 1 } })

/-- `MemStorage.updateLoan`. -/
def Mem.updateLoan (s : Mem) (id : Nat) (data : LoanPatch) :
    Option Loan × Mem :=
  match s.getLoan id with
  | none => (none, s)
  | some loan =>
      let updatedLoan := mergeLoan loan data
      (some updatedLoan, { s with loans := mset s.loans id updatedLoan })

/-- `MemStorage.addGuarantor`. -/
def Mem.addGuarantor (s : Mem) (guarantorData : InsertGuarantor) :
    Guarantor × Mem :=
  let id := s.currentIds.guarantor
  let guarantor : Guarantor :=
    { id := id, loanId := guarantorData.loanId,
      guarantorAddress := guarantorData.guarantorAddress,
      approved := guarantorData.approved }
  let gs := (mget s.guarantors guarantorData.loanId).getD []
  (guarantor,
   { s with guarantors := mset s.guarantors guarantorData.loanId (gs ++ [guarantor]),
            currentIds := { s.currentIds with guarantor := id + 1 } })

/-- `MemStorage.updateGuarantor`: finds the guarantor case-insensitively and
replaces it in place. -/
def Mem.updateGuarantor (s : Mem) (loanId : Nat) (address : String)
    (approved : Bool) : Option Guarantor × Mem :=
  let gs := (mget s.guarantors loanId).getD []
  match gs.findIdx? (fun g => lowerStr g.guarantorAddress == lowerStr address) with
  | none => (none, s)
  | some index =>
      match gs[index]? with
      | none => (none, s)
      | some guarantor =>
          let updatedGuarantor := { guarantor with approved := approved }
          (some updatedGuarantor,
           { s with guarantors := mset s.guarantors loanId (gs.set index updatedGuarantor) })

/-- `MemStorage.getProposal`. -/
def Mem.getProposal (s : Mem) (id : Nat) : Option Proposal :=
  mget s.proposals id

/-- `MemStorage.createProposal` (`now` models `new Date()`). -/
def Mem.createProposal (s : Mem) (now : Nat) (proposalData : InsertProposal) :
    Proposal × Mem :=
  let id := s.currentIds.proposal
  let proposal : Proposal :=
    { id := id, groupId := proposalData.groupId,
      description := proposalData.description, votesYes := 0, votesNo := 0,
      deadline := proposalData.deadline, executed := false, createdAt := now }
  let proposalIds := (mget s.proposalsByGroup proposalData.groupId).getD []
  (proposal,
   { s with proposals := mset s.proposals id proposal,
            proposalsByGroup := mset s.proposalsByGroup proposalData.groupId (proposalIds ++ [id]),
            votes := mset s.votes id [],
            currentIds := { s.currentIds with proposal := id + 1 } })

/-- `MemStorage.updateProposal`. -/
def Mem.updateProposal (s : Mem) (id : Nat) (data : ProposalPatch) :
    Option Proposal × Mem :=
  match s.getProposal id with
  | none => (none, s)
  | some proposal =>
      let updatedProposal := mergeProposal proposal data
      (some updatedProposal, { s with proposals := mset s.proposals id updatedProposal })

/-- `MemStorage.getVotes`. -/
def Mem.getVotes (s : Mem) (proposalId : Nat) : List Vote :=
  (mget s.votes proposalId).getD []

/-- `MemStorage.addVote`: appends the vote, then — when the proposal
exists — bumps exactly one tally through `updateProposal`. -/
def Mem.addVote (s : Mem) (voteData : InsertVote) : Vote × Mem :=
  let id := s.currentIds.vote
  let vote : Vote :=
    { id := id, proposalId := voteData.proposalId,
      voterAddress := voteData.voterAddress, vote := voteData.vote }
  let vs := (mget s.votes voteData.proposalId).getD []
  let s1 : Mem :=
    { s with votes := mset s.votes voteData.proposalId (vs ++ [vote]),
             currentIds := { s.currentIds with vote := id + 1 } }
  match s1.getProposal voteData.proposalId with
  | some proposal =>
      let votesYes := if voteData.vote then proposal.votesYes + 1 else proposal.votesYes
      let votesNo := if !voteData.vote then proposal.votesNo + 1 else proposal.votesNo
      let r := s1.updateProposal voteData.proposalId
        { votesYes := some votesYes, votesNo := some votesNo }
      (vote, r.2)
  | none => (vote, s1)

/-- `MemStorage.hasVoted`: case-insensitive duplicate-vote test. -/
def Mem.hasVoted (s : Mem) (proposalId : Nat) (address : String) : Bool :=
  ((mget s.votes proposalId).getD []).any
    (fun v => lowerStr v.voterAddress == lowerStr address)

/-- `MemStorage.getGroupActivities`: sort a copy newest-first, take `limit`. -/
def Mem.getGroupActivities (s : Mem) (groupId : Nat) (limit : Nat) :
    List Activity :=
  let acts := (mget s.activities groupId).getD []
  (acts.mergeSort (fun a b => decide (b.timestamp ≤ a.timestamp))).take limit

/-- `MemStorage.getGroupActivities` with the omitted-`limit` default of 10. -/
def Mem.getGroupActivitiesDefault (s : Mem) (groupId : Nat) : List Activity :=
  s.getGroupActivities groupId 10

/-- `MemStorage.addActivity` (`now` models `new Date()`). -/
def Mem.addActivity (s : Mem) (now : Nat) (activityData : InsertActivity) :
    Activity × Mem :=
  let id := s.currentIds.activity
  let activity : Activity :=
    { id := id, groupId := activityData.groupId,
      userAddress := activityData.userAddress,
      activityType := activityData.activityType,
      description := activityData.description, timestamp := now }
  let acts := (mget s.activities activityData.groupId).getD []
  (activity,
   { s with activities := mset s.activities activityData.groupId (acts ++ [activity]),
            currentIds := { s.currentIds with activity := id + 1 } })

/-- State of `DatabaseStorage`: one row list per table, plus the serial id
counters the database assigns on insert. -/
structure DB where
  users : List User
  groups : List Group
  groupMembers : List GroupMember
  loans : List Loan
  guarantors : List Guarantor
  proposals : List Proposal
  votes : List Vote
  activities : List Activity
  seq : Ids
  deriving DecidableEq

/-- An empty database with all serial counters at 1. -/
def DB.empty : DB where
  users := []
  groups := []
  groupMembers := []
  loans := []
  guarantors := []
  proposals := []
  votes := []
  activities := []
  seq := ⟨1, 1, 1, 1, 1, 1, 1, 1⟩

/-- `DatabaseStorage.getUser`: `select ... where address = lower(input)`. -/
def DB.getUser (s : DB) (address : String) : Option User :=
  s.users.find? (fun u => u.address == lowerStr address)

/-- `DatabaseStorage.createUser`: insert with the address lowercased. -/
def DB.createUser (s : DB) (userData : InsertUser) : User × DB :=
  let user : User :=
    { id := s.seq.user, address := lowerStr userData.address,
      groupId := userData.groupId, totalDeposits := userData.totalDeposits,
      creditScore := userData.creditScore,
      lastDepositTime := userData.lastDepositTime,
      registered := userData.registered, isDefaulted := userData.isDefaulted }
  (user, { s with users := s.users ++ [user],
                  seq := { s.seq with user := s.seq.user + 1 } })

/-- `DatabaseStorage.getGroup`. -/
def DB.getGroup (s : DB) (id : Nat) : Option Group :=
  s.groups.find? (fun g => g.id == id)

/-- `DatabaseStorage.createGroup`: one transaction inserting the group row
and a membership row for the (lowercased) admin. -/
def DB.createGroup (s : DB) (groupData : InsertGroup) : Group × DB :=
  let group : Group :=
    { id := s.seq.group, name := groupData.name, admin := groupData.admin,
      totalDeposits := 0, totalLoaned := 0 }
  let member : GroupMember :=
    { id := s.seq.groupMember, groupId := group.id,
      memberAddress := lowerStr groupData.admin }
  (group,
   { s with groups := s.groups ++ [group],
            groupMembers := s.groupMembers ++ [member],
            seq := { s.seq with group := s.seq.group + 1,
                                groupMember := s.seq.groupMember + 1 } })

/-- `DatabaseStorage.updateGroup`: `update ... where id = ? returning`. -/
def DB.updateGroup (s : DB) (id : Nat) (data : GroupPatch) :
    Option Group × DB :=
  let returned := (s.groups.filter (fun g => g.id == id)).map (fun g => mergeGroup g data)
  (returned.head?,
   { s with groups := s.groups.map (fun g => if g.id == id then mergeGroup g data else g) })

/-- `DatabaseStorage.addGroupMember`: insert with the address lowercased. -/
def DB.addGroupMember (s : DB) (memberData : InsertGroupMember) :
    GroupMember × DB :=
  let member : GroupMember :=
    { id := s.seq.groupMember, groupId := memberData.groupId,
      memberAddress := lowerStr memberData.memberAddress }
  (member, { s with groupMembers := s.groupMembers ++ [member],
                    seq := { s.seq with groupMember := s.seq.groupMember + 1 } })

/-- `DatabaseStorage.isGroupMember`: select on `(groupId, lower(address))`. -/
def DB.isGroupMember (s : DB) (groupId : Nat) (address : String) : Bool :=
  (s.groupMembers.find?
    (fun m => m.groupId == groupId && m.memberAddress == lowerStr address)).isSome

/-- `DatabaseStorage.getLoan`. -/
def DB.getLoan (s : DB) (id : Nat) : Option Loan :=
  s.loans.find? (fun l => l.id == id)

/-- `DatabaseStorage.createLoan`: insert with the borrower lowercased;
`createdAt` gets the database clock default. -/
def DB.createLoan (s : DB) (now : Nat) (loanData : InsertLoan) : Loan × DB :=
  let loan : Loan :=
    { id := s.seq.loan, borrowerAddress := lowerStr loanData.borrowerAddress,
      amount := loanData.amount, dueDate := loanData.dueDate,
      repaid := loanData.repaid, approved := loanData.approved,
      defaulted := loanData.defaulted, createdAt := now }
  (loan, { s with loans := s.loans ++ [loan],
                  seq := { s.seq with loan := s.seq.loan + 1 } })

/-- `DatabaseStorage.updateLoan`: `update ... where id = ? returning`. -/
def DB.updateLoan (s : DB) (id : Nat) (data : LoanPatch) :
    Option Loan × DB :=
  let returned := (s.loans.filter (fun l => l.id == id)).map (fun l => mergeLoan l data)
  (returned.head?,
   { s with loans := s.loans.map (fun l => if l.id == id then mergeLoan l data else l) })

/-- `DatabaseStorage.addGuarantor`: insert with the address lowercased. -/
def DB.addGuarantor (s : DB) (guarantorData : InsertGuarantor) :
    Guarantor × DB :=
  let guarantor : Guarantor :=
    { id := s.seq.guarantor, loanId := guarantorData.loanId,
      guarantorAddress := lowerStr guarantorData.guarantorAddress,
      approved := guarantorData.approved }
  (guarantor, { s with guarantors := s.guarantors ++ [guarantor],
                       seq := { s.seq with guarantor := s.seq.guarantor + 1 } })

/-- `DatabaseStorage.getProposal`. -/
def DB.getProposal (s : DB) (id : Nat) : Option Proposal :=
  s.proposals.find? (fun p => p.id == id)

/-- `DatabaseStorage.createProposal`: insert with zero tallies. -/
def DB.createProposal (s : DB) (now : Nat) (proposalData : InsertProposal) :
    Proposal × DB :=
  let proposal : Proposal :=
    { id := s.seq.proposal, groupId := proposalData.groupId,
      description := proposalData.description, votesYes := 0, votesNo := 0,
      deadline := proposalData.deadline, executed := false, createdAt := now }
  (proposal, { s with proposals := s.proposals ++ [proposal],
                      seq := { s.seq with proposal := s.seq.proposal + 1 } })

/-- `DatabaseStorage.updateProposal`: `update ... where id = ? returning`. -/
def DB.updateProposal (s : DB) (id : Nat) (data : ProposalPatch) :
    Option Proposal × DB :=
  let returned := (s.proposals.filter (fun p => p.id == id)).map (fun p => mergeProposal p data)
  (returned.head?,
   { s with proposals := s.proposals.map (fun p => if p.id == id then mergeProposal p data else p) })

/-- `DatabaseStorage.getVotes`. -/
def DB.getVotes (s : DB) (proposalId : Nat) : List Vote :=
  s.votes.filter (fun v => v.proposalId == proposalId)

/-- `DatabaseStorage.addVote`: one transaction inserting the (lowercased)
vote row and running `update proposals set votesYes = votesYes + 1` (or the
`votesNo` twin) on the proposal's row. -/
def DB.addVote (s : DB) (voteData : InsertVote) : Vote × DB :=
  let vote : Vote :=
    { id := s.seq.vote, proposalId := voteData.proposalId,
      voterAddress := lowerStr voteData.voterAddress, vote := voteData.vote }
  let s1 : DB :=
    { s with votes := s.votes ++ [vote],
             seq := { s.seq with vote := s.seq.vote + 1 } }
  let s2 : DB :=
    if voteData.vote then
      { s1 with proposals := (s1.proposals.map
          (fun p => if p.id == voteData.proposalId then { p with votesYes := p.votesYes + 1 } else p)) }
    else
      { s1 with proposals := (s1.proposals.map
          (fun p => if p.id == voteData.proposalId then { p with votesNo := p.votesNo + 1 } else p)) }
  (vote, s2)

/-- `DatabaseStorage.hasVoted`: select on `(proposalId, lower(address))`. -/
def DB.hasVoted (s : DB) (proposalId : Nat) (address : String) : Bool :=
  (s.votes.find?
    (fun v => v.proposalId == proposalId && v.voterAddress == lowerStr address)).isSome

/-- `DatabaseStorage.getGroupActivities`: `where groupId = ? order by
timestamp desc limit ?`. -/
def DB.getGroupActivities (s : DB) (groupId : Nat) (limit : Nat) :
    List Activity :=
  (((s.activities.filter (fun a => a.groupId == groupId)).mergeSort
      (fun a b => decide (b.timestamp ≤ a.timestamp))).take limit)

/-- `DatabaseStorage.getGroupActivities` with the omitted-`limit` default
of 10. -/
def DB.getGroupActivitiesDefault (s : DB) (groupId : Nat) : List Activity :=
  s.getGroupActivities groupId 10

/-- `DatabaseStorage.addActivity`: insert with the address lowercased;
`timestamp` gets the database clock default. -/
def DB.addActivity (s : DB) (now : Nat) (activityData : InsertActivity) :
    Activity × DB :=
  let activity : Activity :=
    { id := s.seq.activity, groupId := activityData.groupId,
      userAddress := lowerStr activityData.userAddress,
      activityType := activityData.activityType,
      description := activityData.description, timestamp := now }
  (activity, { s with activities := s.activities ++ [activity],
                      seq := { s.seq with activity := s.seq.activity + 1 } })

/-- The `POST /api/users` handler of `routes.ts` over `MemStorage`:
returns the existing user (status 200) when one is already stored for the
address, otherwise creates one (status 201). -/
def postUsersMem (s : Mem) (body : InsertUser) : Nat × Option User × Mem :=
  match s.getUser body.address with
  | some existingUser => (200, some existingUser, s)
  | none =>
      let r := s.createUser body
      (201, some r.1, r.2)

/-- The `POST /api/users` handler of `routes.ts` over `DatabaseStorage`. -/
def postUsersDB (s : DB) (body : InsertUser) : Nat × Option User × DB :=
  match s.getUser body.address with
  | some existingUser => (200, some existingUser, s)
  | none =>
      let r := s.createUser body
      (201, some r.1, r.2)

/-- The `POST /api/proposals/:id/votes` handler of `routes.ts` over
`MemStorage`: 404 when the proposal is missing, 400 when `hasVoted`,
otherwise `addVote` followed by the `vote_cast` activity (status 201). -/
def postVoteMem (s : Mem) (now : Nat) (proposalId : Nat)
    (voterAddress : String) (voteVal : Bool) : Nat × Mem :=
  match s.getProposal proposalId with
  | none => (404, s)
  | some proposal =>
      if s.hasVoted proposal.id voterAddress then (400, s)
      else
        let r1 := s.addVote
          { proposalId := proposalId, voterAddress := voterAddress, vote := voteVal }
        let r2 := r1.2.addActivity now
          { groupId := proposal.groupId, userAddress := voterAddress,
            activityType := "vote_cast",
            description := voterAddress ++ (if voteVal then " voted Yes" else " voted No")
              ++ " on proposal: " ++ proposal.description }
        (201, r2.2)

/-- The `POST /api/proposals/:id/votes` handler of `routes.ts` over
`DatabaseStorage`. -/
def postVoteDB (s : DB) (now : Nat) (proposalId : Nat)
    (voterAddress : String) (voteVal : Bool) : Nat × DB :=
  match s.getProposal proposalId with
  | none => (404, s)
  | some proposal =>
      if s.hasVoted proposal.id voterAddress then (400, s)
      else
        let r1 := s.addVote
          { proposalId := proposalId, voterAddress := voterAddress, vote := voteVal }
        let r2 := r1.2.addActivity now
          { groupId := proposal.groupId, userAddress := voterAddress,
            activityType := "vote_cast",
            description := voterAddress ++ (if voteVal then " voted Yes" else " voted No")
              ++ " on proposal: " ++ proposal.description }
        (201, r2.2)


theorem find?_map_ite {α : Type} (l : List α) (pr : α → Bool) (f : α → α)
    (hpr : ∀ x, pr (f x) = pr x) :
    (l.map (fun x => if pr x then f x else x)).find? pr = (l.find? pr).map f := by
  induction l with
  | nil => simp
  | cons h t ih =>
    by_cases hh : pr h = true
    · simp [hh, List.find?_cons_of_pos, hpr, ih]
    · simp only [List.map_cons, if_neg hh]
      rw [List.find?_cons_of_neg _ hh, List.find?_cons_of_neg _ hh, ih]

theorem map_ite_id {α : Type} (l : List α) (pr : α → Bool) (f : α → α)
    (h : l.find? pr = none) :
    l.map (fun x => if pr x then f x else x) = l := by
  have h' := List.find?_eq_none.mp h
  calc l.map (fun x => if pr x then f x else x) = l.map id := by
        apply List.map_congr_left
        intro a ha
        simp [h' a ha]
    _ = l := List.map_id l

theorem filter_none_of_find?_none {α : Type} (l : List α) (pr : α → Bool)
    (h : l.find? pr = none) : l.filter pr = [] := by
  have h' := List.find?_eq_none.mp h
  apply List.filter_eq_nil_iff.mpr
  intro a ha
  exact h' a ha

/-- C5: after `MemStorage.createUser` stores a user for some address,
`getUser` on any case-variant of that address returns exactly the created
record: create-then-get round-trips regardless of casing. -/
theorem c5_createUser_getUser_roundtrip (s : Mem) (u : InsertUser) (a2 : String)
    (h : lowerStr a2 = lowerStr u.address) :
    (s.createUser u).2.getUser a2 = some (s.createUser u).1 := by
  simp [Mem.createUser, Mem.getUser, h, mget_mset_self]

/-- C5 witness: concrete round-trip through a case-variant. -/
theorem c5_witness :
    (Mem.empty.createUser ⟨"0xAB", none, 0, 100, 0, false, false⟩).2.getUser "0Xab"
      = some (Mem.empty.createUser ⟨"0xAB", none, 0, 100, 0, false, false⟩).1 :=
  c5_createUser_getUser_roundtrip Mem.empty ⟨"0xAB", none, 0, 100, 0, false, false⟩ "0Xab"
    (by decide)

/-- C10: `MemStorage.addVote` does not require the proposal to exist — with
no stored proposal for `v.proposalId` it still appends the vote, returns the
new record, raises no error, and updates no tally. -/
theorem c10_addVote_missing_proposal (s : Mem) (v : InsertVote)
    (h : mget s.proposals v.proposalId = none) :
    s.addVote v =
      ({ id := s.currentIds.vote, proposalId := v.proposalId,
         voterAddress := v.voterAddress, vote := v.vote },
       { s with votes := mset s.votes v.proposalId
                  (((mget s.votes v.proposalId).getD []) ++
                    [{ id := s.currentIds.vote, proposalId := v.proposalId,
                       voterAddress := v.voterAddress, vote := v.vote }]),
                currentIds := { s.currentIds with vote := s.currentIds.vote + 1 } }) := by
  simp [Mem.addVote, Mem.getProposal, h]

/-- C10 witness: a vote on the nonexistent proposal 7 in the empty store. -/
theorem c10_witness :
    Mem.empty.addVote ⟨7, "0xAB", true⟩ =
      ({ id := 1, proposalId := 7, voterAddress := "0xAB", vote := true },
       { Mem.empty with
           votes := mset Mem.empty.votes 7
             (((mget Mem.empty.votes 7).getD []) ++
               [{ id := 1, proposalId := 7, voterAddress := "0xAB", vote := true }]),
           currentIds := { Mem.empty.currentIds with vote := 2 } }) :=
  c10_addVote_missing_proposal Mem.empty ⟨7, "0xAB", true⟩ (by decide)

/-- C7: updating a nonexistent loan, group or proposal returns the
not-found signal `none` and leaves the whole state unchanged, in both the
in-memory and the relational implementation. -/
theorem c7_update_missing_returns_none (sm : Mem) (sd : DB)
    (i j k i2 j2 k2 : Nat) (dl : LoanPatch) (dg : GroupPatch) (dp : ProposalPatch)
    (hl : mget sm.loans i = none) (hg : mget sm.groups j = none)
    (hp : mget sm.proposals k = none)
    (hl2 : sd.loans.find? (fun l => l.id == i2) = none)
    (hg2 : sd.groups.find? (fun g => g.id == j2) = none)
    (hp2 : sd.proposals.find? (fun p => p.id == k2) = none) :
    sm.updateLoan i dl = (none, sm) ∧ sm.updateGroup j dg = (none, sm) ∧
    sm.updateProposal k dp = (none, sm) ∧
    sd.updateLoan i2 dl = (none, sd) ∧ sd.updateGroup j2 dg = (none, sd) ∧
    sd.updateProposal k2 dp = (none, sd) := by
  refine ⟨?_, ?_, ?_, ?_, ?_, ?_⟩
  · simp [Mem.updateLoan, Mem.getLoan, hl]
  · simp [Mem.updateGroup, Mem.getGroup, hg]
  · simp [Mem.updateProposal, Mem.getProposal, hp]
  · simp only [DB.updateLoan]
    rw [filter_none_of_find?_none _ _ hl2, map_ite_id _ _ _ hl2]
    simp
  · simp only [DB.updateGroup]
    rw [filter_none_of_find?_none _ _ hg2, map_ite_id _ _ _ hg2]
    simp
  · simp only [DB.updateProposal]
    rw [filter_none_of_find?_none _ _ hp2, map_ite_id _ _ _ hp2]
    simp

/-- C7 witness: ids 1, 2, 3 in the empty stores. -/
theorem c7_witness :
    Mem.empty.updateLoan 1 {} = (none, Mem.empty) ∧
    Mem.empty.updateGroup 2 {} = (none, Mem.empty) ∧
    Mem.empty.updateProposal 3 {} = (none, Mem.empty) ∧
    DB.empty.updateLoan 1 {} = (none, DB.empty) ∧
    DB.empty.updateGroup 2 {} = (none, DB.empty) ∧
    DB.empty.updateProposal 3 {} = (none, DB.empty) :=
  c7_update_missing_returns_none Mem.empty DB.empty 1 2 3 1 2 3 {} {} {}
    (by decide) (by decide) (by decide) (by decide) (by decide) (by decide)

/-- C3: immediately after `createGroup` returns a group with id `i`,
`isGroupMember i admin` is true — the admin is auto-enrolled as the first
member, in both implementations. -/
theorem c3_createGroup_admin_is_member (sm : Mem) (sd : DB) (g : InsertGroup) :
    (sm.createGroup g).2.isGroupMember (sm.createGroup g).1.id g.admin = true ∧
    (sd.createGroup g).2.isGroupMember (sd.createGroup g).1.id g.admin = true := by
  constructor
  · simp [Mem.createGroup, Mem.addGroupMember, Mem.isGroupMember,
          mget_mset_self, mset_mset_same]
  · simp [DB.createGroup, DB.isGroupMember, List.find?_append]

/-- C1: for a stored proposal, `addVote` increments exactly one tally —
`votesYes` by 1 when the vote is yes, `votesNo` by 1 when it is no — and
leaves every other field of the proposal unchanged, in both the in-memory
and the relational implementation. -/
theorem c1_addVote_increments_one_tally (sm : Mem) (sd : DB) (v : InsertVote)
    (p q : Proposal)
    (hm : sm.getProposal v.proposalId = some p)
    (hd : sd.getProposal v.proposalId = some q) :
    (sm.addVote v).2.getProposal v.proposalId =
      some { p with votesYes := if v.vote then p.votesYes + 1 else p.votesYes,
                    votesNo := if v.vote then p.votesNo else p.votesNo + 1 } ∧
    (sd.addVote v).2.getProposal v.proposalId =
      some { q with votesYes := if v.vote then q.votesYes + 1 else q.votesYes,
                    votesNo := if v.vote then q.votesNo else q.votesNo + 1 } := by
  have hm' : mget sm.proposals v.proposalId = some p := hm
  constructor
  · cases hv : v.vote <;>
      simp [Mem.addVote, Mem.getProposal, Mem.updateProposal, mergeProposal,
            hm', hv, mget_mset_self]
  · cases hv : v.vote
    · have := find?_map_ite sd.proposals (fun r => r.id == v.proposalId)
        (fun r => { r with votesNo := r.votesNo + 1 }) (fun r => rfl)
      simp only [DB.addVote, DB.getProposal, hv, Bool.false_eq_true, if_false]
      rw [this]
      rw [DB.getProposal] at hd
      rw [hd]
      simp
    · have := find?_map_ite sd.proposals (fun r => r.id == v.proposalId)
        (fun r => { r with votesYes := r.votesYes + 1 }) (fun r => rfl)
      simp only [DB.addVote, DB.getProposal, hv, if_true]
      rw [this]
      rw [DB.getProposal] at hd
      rw [hd]
      simp

/-- C1 witness: a yes vote on proposal 1 present in both stores. -/
theorem c1_witness :
    ((({ Mem.empty with proposals := [(1, ⟨1, 1, "d", 0, 0, 9, false, 0⟩)] } : Mem).addVote
        ⟨1, "0xAB", true⟩).2.getProposal 1 =
      some { (⟨1, 1, "d", 0, 0, 9, false, 0⟩ : Proposal) with
               votesYes := if true then (0 : Int) + 1 else 0,
               votesNo := if true then (0 : Int) else 0 + 1 }) ∧
    ((({ DB.empty with proposals := [⟨1, 1, "d", 0, 0, 9, false, 0⟩] } : DB).addVote
        ⟨1, "0xAB", true⟩).2.getProposal 1 =
      some { (⟨1, 1, "d", 0, 0, 9, false, 0⟩ : Proposal) with
               votesYes := if true then (0 : Int) + 1 else 0,
               votesNo := if true then (0 : Int) else 0 + 1 }) :=
  c1_addVote_increments_one_tally
    { Mem.empty with proposals := [(1, ⟨1, 1, "d", 0, 0, 9, false, 0⟩)] }
    { DB.empty with proposals := [⟨1, 1, "d", 0, 0, 9, false, 0⟩] }
    ⟨1, "0xAB", true⟩ ⟨1, 1, "d", 0, 0, 9, false, 0⟩ ⟨1, 1, "d", 0, 0, 9, false, 0⟩
    (by decide) (by decide)

/-- C9: `POST /api/users` is idempotent — when a user already exists for the
(lowercased) address the handler returns it with no write, and submitting
the same body twice yields the same stored record and state, in both
implementations. -/
theorem c9_post_users_idempotent (sm : Mem) (sd : DB) (u : InsertUser)
    (r1 r2 : User)
    (hm : sm.getUser u.address = some r1) (hd : sd.getUser u.address = some r2) :
    postUsersMem sm u = (200, some r1, sm) ∧
    postUsersDB sd u = (200, some r2, sd) ∧
    (∀ s : Mem, postUsersMem (postUsersMem s u).2.2 u
        = (200, (postUsersMem s u).2.1, (postUsersMem s u).2.2)) ∧
    (∀ s : DB, postUsersDB (postUsersDB s u).2.2 u
        = (200, (postUsersDB s u).2.1, (postUsersDB s u).2.2)) := by
  refine ⟨by simp [postUsersMem, hm], by simp [postUsersDB, hd], ?_, ?_⟩
  · intro s
    cases hg : mget s.users (lowerStr u.address) with
    | some r => simp [postUsersMem, Mem.getUser, hg]
    | none => simp [postUsersMem, Mem.getUser, hg, Mem.createUser, mget_mset_self]
  · intro s
    cases hg : s.users.find? (fun x => x.address == lowerStr u.address) with
    | some r => simp [postUsersDB, DB.getUser, hg]
    | none => simp [postUsersDB, DB.getUser, hg, DB.createUser, List.find?_append]

/-- C9 witness: fresh then repeated submission of the same body, plus the
already-exists case, at concrete states. -/
theorem c9_witness :
    (postUsersMem { Mem.empty with
        users := [("0xab", ⟨5, "0xab", none, 0, 100, 0, false, false⟩)] }
        ⟨"0xAB", none, 0, 100, 0, false, false⟩
      = (200, some ⟨5, "0xab", none, 0, 100, 0, false, false⟩,
         { Mem.empty with
             users := [("0xab", ⟨5, "0xab", none, 0, 100, 0, false, false⟩)] })) ∧
    (postUsersDB { DB.empty with
        users := [⟨5, "0xab", none, 0, 100, 0, false, false⟩] }
        ⟨"0xAB", none, 0, 100, 0, false, false⟩
      = (200, some ⟨5, "0xab", none, 0, 100, 0, false, false⟩,
         { DB.empty with users := [⟨5, "0xab", none, 0, 100, 0, false, false⟩] })) ∧
    (∀ s : Mem, postUsersMem (postUsersMem s ⟨"0xAB", none, 0, 100, 0, false, false⟩).2.2
        ⟨"0xAB", none, 0, 100, 0, false, false⟩
        = (200, (postUsersMem s ⟨"0xAB", none, 0, 100, 0, false, false⟩).2.1,
           (postUsersMem s ⟨"0xAB", none, 0, 100, 0, false, false⟩).2.2)) ∧
    (∀ s : DB, postUsersDB (postUsersDB s ⟨"0xAB", none, 0, 100, 0, false, false⟩).2.2
        ⟨"0xAB", none, 0, 100, 0, false, false⟩
        = (200, (postUsersDB s ⟨"0xAB", none, 0, 100, 0, false, false⟩).2.1,
           (postUsersDB s ⟨"0xAB", none, 0, 100, 0, false, false⟩).2.2)) :=
  c9_post_users_idempotent
    { Mem.empty with users := [("0xab", ⟨5, "0xab", none, 0, 100, 0, false, false⟩)] }
    { DB.empty with users := [⟨5, "0xab", none, 0, 100, 0, false, false⟩] }
    ⟨"0xAB", none, 0, 100, 0, false, false⟩
    ⟨5, "0xab", none, 0, 100, 0, false, false⟩
    ⟨5, "0xab", none, 0, 100, 0, false, false⟩
    (by decide) (by decide)
/-- C2: when the named proposal exists and some case-variant of the voter
address has already voted on it, `POST /api/proposals/:id/votes` responds
400 and performs no write: the state (hence all stored votes and the
tallies) is unchanged, for the handler over either implementation.  For the
relational store the vote rows are assumed address-normalized, the
invariant its own `addVote` establishes. -/
theorem c2_second_vote_rejected (sm : Mem) (sd : DB) (now1 now2 pid1 pid2 : Nat)
    (addr1 addr2 : String) (b1 b2 : Bool) (p q : Proposal)
    (hm : sm.getProposal pid1 = some p)
    (hvm : ∃ vt ∈ (mget sm.votes p.id).getD [], lowerStr vt.voterAddress = lowerStr addr1)
    (hd : sd.getProposal pid2 = some q)
    (hnorm : ∀ vt ∈ sd.votes, vt.voterAddress = lowerStr vt.voterAddress)
    (hvd : ∃ vt ∈ sd.votes, vt.proposalId = q.id ∧ lowerStr vt.voterAddress = lowerStr addr2) :
    postVoteMem sm now1 pid1 addr1 b1 = (400, sm) ∧
    postVoteDB sd now2 pid2 addr2 b2 = (400, sd) := by
  constructor
  · have hm' : mget sm.proposals pid1 = some p := hm
    have hvoted : sm.hasVoted p.id addr1 = true := by
      obtain ⟨vt, hmem, heq⟩ := hvm
      simp only [Mem.hasVoted, List.any_eq_true]
      exact ⟨vt, hmem, by simp [heq]⟩
    simp [postVoteMem, Mem.getProposal, hm', hvoted]
  · have hd' : sd.proposals.find? (fun r => r.id == pid2) = some q := hd
    have hvoted : sd.hasVoted q.id addr2 = true := by
      obtain ⟨vt, hmem, hpid, heq⟩ := hvd
      have haddr : vt.voterAddress = lowerStr addr2 := by
        rw [hnorm vt hmem, heq]
      simp only [DB.hasVoted, List.find?_isSome]
      exact ⟨vt, hmem, by simp [hpid, haddr]⟩
    simp [postVoteDB, DB.getProposal, hd', hvoted]

/-- C2 witness: one prior lowercase vote, the same voter retried in
different casing against both stores. -/
theorem c2_witness :
    (postVoteMem
        { Mem.empty with proposals := [(1, ⟨1, 1, "d", 0, 0, 9, false, 0⟩)],
                         votes := [(1, [⟨1, 1, "0xab", true⟩])] }
        0 1 "0xAB" false
      = (400, { Mem.empty with proposals := [(1, ⟨1, 1, "d", 0, 0, 9, false, 0⟩)],
                               votes := [(1, [⟨1, 1, "0xab", true⟩])] })) ∧
    (postVoteDB
        { DB.empty with proposals := [⟨1, 1, "d", 0, 0, 9, false, 0⟩],
                        votes := [⟨1, 1, "0xab", true⟩] }
        0 1 "0xAB" false
      = (400, { DB.empty with proposals := [⟨1, 1, "d", 0, 0, 9, false, 0⟩],
                              votes := [⟨1, 1, "0xab", true⟩] })) :=
  c2_second_vote_rejected
    { Mem.empty with proposals := [(1, ⟨1, 1, "d", 0, 0, 9, false, 0⟩)],
                     votes := [(1, [⟨1, 1, "0xab", true⟩])] }
    { DB.empty with proposals := [⟨1, 1, "d", 0, 0, 9, false, 0⟩],
                    votes := [⟨1, 1, "0xab", true⟩] }
    0 0 1 1 "0xAB" "0xAB" false false
    ⟨1, 1, "d", 0, 0, 9, false, 0⟩ ⟨1, 1, "d", 0, 0, 9, false, 0⟩
    (by decide) (by decide) (by decide) (by decide) (by decide)

/-- C6: `getGroupActivities` returns at most `limit` records, sorted
newest-first by timestamp, and the omitted-`limit` default is 10, in both
implementations. -/
theorem c6_activities_limit_sorted (sm : Mem) (sd : DB)
    (gid1 gid2 limit1 limit2 : Nat) :
    (sm.getGroupActivities gid1 limit1).length ≤ limit1 ∧
    (sm.getGroupActivities gid1 limit1).Pairwise (fun a b => b.timestamp ≤ a.timestamp) ∧
    sm.getGroupActivitiesDefault gid1 = sm.getGroupActivities gid1 10 ∧
    (sd.getGroupActivities gid2 limit2).length ≤ limit2 ∧
    (sd.getGroupActivities gid2 limit2).Pairwise (fun a b => b.timestamp ≤ a.timestamp) ∧
    sd.getGroupActivitiesDefault gid2 = sd.getGroupActivities gid2 10 := by
  have htrans : ∀ a b c : Activity,
      (fun a b : Activity => decide (b.timestamp ≤ a.timestamp)) a b = true →
      (fun a b : Activity => decide (b.timestamp ≤ a.timestamp)) b c = true →
      (fun a b : Activity => decide (b.timestamp ≤ a.timestamp)) a c = true := by
    intro a b c hab hbc
    simp only [decide_eq_true_eq] at *
    exact le_trans hbc hab
  have htotal : ∀ a b : Activity,
      ((fun a b : Activity => decide (b.timestamp ≤ a.timestamp)) a b ||
       (fun a b : Activity => decide (b.timestamp ≤ a.timestamp)) b a) = true := by
    intro a b
    simp only [Bool.or_eq_true, decide_eq_true_eq]
    exact (Nat.le_total b.timestamp a.timestamp)
  have sortedTake : ∀ l : List Activity, ∀ n : Nat,
      ((l.mergeSort (fun a b => decide (b.timestamp ≤ a.timestamp))).take n).Pairwise
        (fun a b => b.timestamp ≤ a.timestamp) := by
    intro l n
    have hs := List.sorted_mergeSort htrans htotal l
    have hs2 : (l.mergeSort (fun a b => decide (b.timestamp ≤ a.timestamp))).Pairwise
        (fun a b : Activity => b.timestamp ≤ a.timestamp) := by
      exact hs.imp (by intro a b hab; simpa using hab)
    exact hs2.sublist (List.take_sublist n _)
  refine ⟨?_, ?_, rfl, ?_, ?_, rfl⟩
  · simp only [Mem.getGroupActivities]
    exact le_trans (List.length_take_le _ _) (le_refl _)
  · exact sortedTake _ _
  · simp only [DB.getGroupActivities]
    exact le_trans (List.length_take_le _ _) (le_refl _)
  · exact sortedTake _ _
/-- C4 counterexample: `MemStorage.addGroupMember` stores the member address
exactly as given — the record stored for input address `"0xAB"` keeps
`"0xAB"`, which differs from its lowercase form — so lowercase
normalization is not established by every mutating in-memory operation. -/
theorem c4_counterexample :
    (Mem.empty.addGroupMember { groupId := 1, memberAddress := "0xAB" }).1.memberAddress
        = "0xAB" ∧
    mget (Mem.empty.addGroupMember { groupId := 1, memberAddress := "0xAB" }).2.groupMembers 1
        = some [{ id := 1, groupId := 1, memberAddress := "0xAB" }] ∧
    "0xAB" ≠ lowerStr "0xAB" := by
  refine ⟨by decide, by decide, by decide⟩

/-- C4 amended: lowercase normalization at the storage boundary is
established by every listed mutating operation of the relational
implementation, and by `createUser` of the in-memory implementation; the
remaining in-memory operations (`addGroupMember`, `createLoan`,
`addGuarantor`, `addVote`, `addActivity`) store the address as given. -/
theorem c4_amended_lowercase_boundary (sd : DB) (sm : Mem) (now : Nat)
    (u : InsertUser) (m : InsertGroupMember) (l : InsertLoan)
    (g : InsertGuarantor) (v : InsertVote) (a : InsertActivity) :
    (sd.createUser u).1.address = lowerStr u.address ∧
    (sd.createUser u).2.users = sd.users ++ [(sd.createUser u).1] ∧
    (sd.addGroupMember m).1.memberAddress = lowerStr m.memberAddress ∧
    (sd.addGroupMember m).2.groupMembers = sd.groupMembers ++ [(sd.addGroupMember m).1] ∧
    (sd.createLoan now l).1.borrowerAddress = lowerStr l.borrowerAddress ∧
    (sd.createLoan now l).2.loans = sd.loans ++ [(sd.createLoan now l).1] ∧
    (sd.addGuarantor g).1.guarantorAddress = lowerStr g.guarantorAddress ∧
    (sd.addGuarantor g).2.guarantors = sd.guarantors ++ [(sd.addGuarantor g).1] ∧
    (sd.addVote v).1.voterAddress = lowerStr v.voterAddress ∧
    (sd.addVote v).2.votes = sd.votes ++ [(sd.addVote v).1] ∧
    (sd.addActivity now a).1.userAddress = lowerStr a.userAddress ∧
    (sd.addActivity now a).2.activities = sd.activities ++ [(sd.addActivity now a).1] ∧
    (sm.createUser u).1.address = lowerStr u.address ∧
    (sm.createUser u).2.users
        = mset sm.users (lowerStr u.address) (sm.createUser u).1 := by
  cases hv : v.vote <;>
    simp [DB.createUser, DB.addGroupMember, DB.createLoan, DB.addGuarantor,
          DB.addVote, DB.addActivity, Mem.createUser, hv]
theorem isSome_mget_mset {K V : Type} [DecidableEq K] (m : List (K × V)) (k k' : K)
    (v : V) (h : (mget m k').isSome) : (mget (mset m k v) k').isSome := by
  rw [mget_mset]
  by_cases hk : k = k' <;> simp [hk, h]

/-- Length of the record list stored at a key (zero when the key is absent). -/
def collLen {K V : Type} [DecidableEq K] (m : List (K × List V)) (k : K) : Nat :=
  ((mget m k).getD []).length

theorem collLen_mset_append {K V : Type} [DecidableEq K] (m : List (K × List V))
    (k k' : K) (l : List V) :
    collLen m k' ≤ collLen (mset m k ((mget m k).getD [] ++ l)) k' := by
  unfold collLen
  rw [mget_mset]
  by_cases hk : k = k'
  · subst hk
    simp
  · simp [hk]

theorem collLen_mset_set {K V : Type} [DecidableEq K] (m : List (K × List V))
    (k k' : K) (i : Nat) (v : V) :
    collLen m k' ≤ collLen (mset m k (((mget m k).getD []).set i v)) k' := by
  unfold collLen
  rw [mget_mset]
  by_cases hk : k = k'
  · subst hk
    simp
  · simp [hk]

theorem collLen_mset_fresh {K V : Type} [DecidableEq K] (m : List (K × List V))
    (k k' : K) (l : List V) (h : mget m k = none) :
    collLen m k' ≤ collLen (mset m k l) k' := by
  unfold collLen
  rw [mget_mset]
  by_cases hk : k = k'
  · subst hk
    simp [h]
  · simp [hk]

/-- One mutating operation of the `IStorage` interface.  The interface
offers only get, create, add and update operations per entity — it exposes
no delete operation, so these constructors cover every mutator. -/
inductive Op where
  | createUser (u : InsertUser)
  | updateUser (address : String) (d : UserPatch)
  | createGroup (g : InsertGroup)
  | updateGroup (id : Nat) (d : GroupPatch)
  | addGroupMember (m : InsertGroupMember)
  | createLoan (now : Nat) (l : InsertLoan)
  | updateLoan (id : Nat) (d : LoanPatch)
  | addGuarantor (g : InsertGuarantor)
  | updateGuarantor (loanId : Nat) (address : String) (approved : Bool)
  | createProposal (now : Nat) (p : InsertProposal)
  | updateProposal (id : Nat) (d : ProposalPatch)
  | addVote (v : InsertVote)
  | addActivity (now : Nat) (a : InsertActivity)

/-- Apply one mutating interface operation to the in-memory store. -/
def applyOp (s : Mem) : Op → Mem
  | .createUser u => (s.createUser u).2
  | .updateUser address d => (s.updateUser address d).2
  | .createGroup g => (s.createGroup g).2
  | .updateGroup i d => (s.updateGroup i d).2
  | .addGroupMember m => (s.addGroupMember m).2
  | .createLoan now l => (s.createLoan now l).2
  | .updateLoan i d => (s.updateLoan i d).2
  | .addGuarantor g => (s.addGuarantor g).2
  | .updateGuarantor i a2 ap => (s.updateGuarantor i a2 ap).2
  | .createProposal now p => (s.createProposal now p).2
  | .updateProposal i d => (s.updateProposal i d).2
  | .addVote v => (s.addVote v).2
  | .addActivity now a => (s.addActivity now a).2

/-- Fresh-id well-formedness of the in-memory store: every list-valued slot
that a `create` operation initialises lives strictly below the matching
counter.  `MemStorage` establishes this from its constructor onwards. -/
def Mem.WF (s : Mem) : Prop :=
  (∀ k, s.currentIds.group ≤ k → mget s.groupMembers k = none) ∧
  (∀ k, s.currentIds.group ≤ k → mget s.proposalsByGroup k = none) ∧
  (∀ k, s.currentIds.loan ≤ k → mget s.guarantors k = none) ∧
  (∀ k, s.currentIds.proposal ≤ k → mget s.votes k = none)

/-- Every record retrievable in `s` is still retrievable in `t`, possibly
with updated fields: each keyed entity stays present and each per-key
record list never shrinks. -/
def Mem.retains (s t : Mem) : Prop :=
  (∀ a, (mget s.users a).isSome → (mget t.users a).isSome) ∧
  (∀ i, (mget s.groups i).isSome → (mget t.groups i).isSome) ∧
  (∀ i, (mget s.loans i).isSome → (mget t.loans i).isSome) ∧
  (∀ i, (mget s.proposals i).isSome → (mget t.proposals i).isSome) ∧
  (∀ i, collLen s.groupMembers i ≤ collLen t.groupMembers i) ∧
  (∀ i, collLen s.guarantors i ≤ collLen t.guarantors i) ∧
  (∀ i, collLen s.votes i ≤ collLen t.votes i) ∧
  (∀ i, collLen s.activities i ≤ collLen t.activities i) ∧
  (∀ a, collLen s.loansByBorrower a ≤ collLen t.loansByBorrower a) ∧
  (∀ i, collLen s.proposalsByGroup i ≤ collLen t.proposalsByGroup i)

theorem Mem.retains_refl (s : Mem) : s.retains s :=
  ⟨fun _ h => h, fun _ h => h, fun _ h => h, fun _ h => h,
   fun _ => le_refl _, fun _ => le_refl _, fun _ => le_refl _,
   fun _ => le_refl _, fun _ => le_refl _, fun _ => le_refl _⟩

/-- C8: no storage operation ever removes a record — for every mutating
operation of the `IStorage` interface (the interface exposes no delete at
all) and every well-formed state, everything retrievable before is still
retrievable afterwards, possibly with updated fields. -/
theorem c8_no_operation_deletes (s : Mem) (op : Op) (h : s.WF) :
    s.retains (applyOp s op) := by
  obtain ⟨h1, h2, h3, h4⟩ := h
  cases op with
  | createUser u =>
      refine ⟨?_, ?_, ?_, ?_, ?_, ?_, ?_, ?_, ?_, ?_⟩ <;>
        simp only [applyOp, Mem.createUser] <;>
        first
          | exact fun a ha => isSome_mget_mset _ _ _ _ ha
          | exact fun i hi => hi
          | exact fun i => le_refl _
  | updateUser address d =>
      cases hg : mget s.users (lowerStr address) with
      | none => simp only [applyOp, Mem.updateUser, Mem.getUser, hg]
                exact s.retains_refl
      | some u0 =>
          refine ⟨?_, ?_, ?_, ?_, ?_, ?_, ?_, ?_, ?_, ?_⟩ <;>
            simp only [applyOp, Mem.updateUser, Mem.getUser, hg] <;>
            first
              | exact fun a ha => isSome_mget_mset _ _ _ _ ha
              | exact fun i hi => hi
              | exact fun i => le_refl _
  | createGroup g =>
      refine ⟨?_, ?_, ?_, ?_, ?_, ?_, ?_, ?_, ?_, ?_⟩ <;>
        simp only [applyOp, Mem.createGroup, Mem.addGroupMember, mget_mset_self,
                   Option.getD_some, List.nil_append, mset_mset_same] <;>
        first
          | exact fun a ha => isSome_mget_mset _ _ _ _ ha
          | exact fun i hi => hi
          | exact fun i => le_refl _
          | exact fun i => collLen_mset_fresh _ _ _ _ (h1 _ (le_refl _))
          | exact fun i => collLen_mset_fresh _ _ _ _ (h2 _ (le_refl _))
  | updateGroup i d =>
      cases hg : mget s.groups i with
      | none => simp only [applyOp, Mem.updateGroup, Mem.getGroup, hg]
                exact s.retains_refl
      | some g0 =>
          refine ⟨?_, ?_, ?_, ?_, ?_, ?_, ?_, ?_, ?_, ?_⟩ <;>
            simp only [applyOp, Mem.updateGroup, Mem.getGroup, hg] <;>
            first
              | exact fun a ha => isSome_mget_mset _ _ _ _ ha
              | exact fun i hi => hi
              | exact fun i => le_refl _
  | addGroupMember m =>
      refine ⟨?_, ?_, ?_, ?_, ?_, ?_, ?_, ?_, ?_, ?_⟩ <;>
        simp only [applyOp, Mem.addGroupMember] <;>
        first
          | exact fun a ha => ha
          | exact fun i => le_refl _
          | exact fun i => collLen_mset_append _ _ _ _
  | createLoan now l =>
      refine ⟨?_, ?_, ?_, ?_, ?_, ?_, ?_, ?_, ?_, ?_⟩ <;>
        simp only [applyOp, Mem.createLoan] <;>
        first
          | exact fun a ha => isSome_mget_mset _ _ _ _ ha
          | exact fun i hi => hi
          | exact fun i => le_refl _
          | exact fun i => collLen_mset_fresh _ _ _ _ (h3 _ (le_refl _))
          | exact fun a => collLen_mset_append _ _ _ _
  | updateLoan i d =>
      cases hg : mget s.loans i with
      | none => simp only [applyOp, Mem.updateLoan, Mem.getLoan, hg]
                exact s.retains_refl
      | some l0 =>
          refine ⟨?_, ?_, ?_, ?_, ?_, ?_, ?_, ?_, ?_, ?_⟩ <;>
            simp only [applyOp, Mem.updateLoan, Mem.getLoan, hg] <;>
            first
              | exact fun a ha => isSome_mget_mset _ _ _ _ ha
              | exact fun i hi => hi
              | exact fun i => le_refl _
  | addGuarantor g =>
      refine ⟨?_, ?_, ?_, ?_, ?_, ?_, ?_, ?_, ?_, ?_⟩ <;>
        simp only [applyOp, Mem.addGuarantor] <;>
        first
          | exact fun a ha => ha
          | exact fun i => le_refl _
          | exact fun i => collLen_mset_append _ _ _ _
  | updateGuarantor i a2 ap =>
      cases hf : ((mget s.guarantors i).getD []).findIdx?
          (fun g => lowerStr g.guarantorAddress == lowerStr a2) with
      | none => simp only [applyOp, Mem.updateGuarantor, hf]
                exact s.retains_refl
      | some idx =>
          cases hgi : ((mget s.guarantors i).getD [])[idx]? with
          | none => simp only [applyOp, Mem.updateGuarantor, hf, hgi]
                    exact s.retains_refl
          | some g0 =>
              refine ⟨?_, ?_, ?_, ?_, ?_, ?_, ?_, ?_, ?_, ?_⟩ <;>
                simp only [applyOp, Mem.updateGuarantor, hf, hgi] <;>
                first
                  | exact fun a ha => ha
                  | exact fun i => le_refl _
                  | exact fun i => collLen_mset_set _ _ _ _ _
  | createProposal now p =>
      refine ⟨?_, ?_, ?_, ?_, ?_, ?_, ?_, ?_, ?_, ?_⟩ <;>
        simp only [applyOp, Mem.createProposal] <;>
        first
          | exact fun a ha => isSome_mget_mset _ _ _ _ ha
          | exact fun i hi => hi
          | exact fun i => le_refl _
          | exact fun i => collLen_mset_fresh _ _ _ _ (h4 _ (le_refl _))
          | exact fun i => collLen_mset_append _ _ _ _
  | updateProposal i d =>
      cases hg : mget s.proposals i with
      | none => simp only [applyOp, Mem.updateProposal, Mem.getProposal, hg]
                exact s.retains_refl
      | some p0 =>
          refine ⟨?_, ?_, ?_, ?_, ?_, ?_, ?_, ?_, ?_, ?_⟩ <;>
            simp only [applyOp, Mem.updateProposal, Mem.getProposal, hg] <;>
            first
              | exact fun a ha => isSome_mget_mset _ _ _ _ ha
              | exact fun i hi => hi
              | exact fun i => le_refl _
  | addVote v =>
      cases hgp : mget s.proposals v.proposalId with
      | none =>
          refine ⟨?_, ?_, ?_, ?_, ?_, ?_, ?_, ?_, ?_, ?_⟩ <;>
            simp only [applyOp, Mem.addVote, Mem.getProposal, hgp] <;>
            first
              | exact fun a ha => ha
              | exact fun i => le_refl _
              | exact fun i => collLen_mset_append _ _ _ _
      | some p0 =>
          refine ⟨?_, ?_, ?_, ?_, ?_, ?_, ?_, ?_, ?_, ?_⟩ <;>
            simp only [applyOp, Mem.addVote, Mem.getProposal, Mem.updateProposal,
                       hgp] <;>
            first
              | exact fun a ha => ha
              | exact fun a ha => isSome_mget_mset _ _ _ _ ha
              | exact fun i => le_refl _
              | exact fun i => collLen_mset_append _ _ _ _
  | addActivity now a =>
      refine ⟨?_, ?_, ?_, ?_, ?_, ?_, ?_, ?_, ?_, ?_⟩ <;>
        simp only [applyOp, Mem.addActivity] <;>
        first
          | exact fun a ha => ha
          | exact fun i => le_refl _
          | exact fun i => collLen_mset_append _ _ _ _

/-- C8 counterexample: on a state holding a vote for a not-yet-created
proposal id — a state raw interface calls can reach, since `addVote` does
not require the proposal to exist — `createProposal` reinitialises the vote
list at that id to `[]`, removing the stored vote record; so the
unrestricted every-state form of the claim fails. -/
theorem c8_counterexample :
    ¬ Mem.retains { Mem.empty with votes := [(1, [⟨1, 1, "0xab", true⟩])] }
        (applyOp { Mem.empty with votes := [(1, [⟨1, 1, "0xab", true⟩])] }
          (Op.createProposal 0 ⟨1, "d", 9⟩)) := by
  intro h
  exact absurd (h.2.2.2.2.2.2.1 1) (by decide)

/-- C8 witness: group creation applied to the freshly constructed store. -/
theorem c8_witness :
    Mem.empty.retains (applyOp Mem.empty (Op.createGroup ⟨"g1", "0xAB"⟩)) :=
  c8_no_operation_deletes Mem.empty (Op.createGroup ⟨"g1", "0xAB"⟩)
    ⟨fun _ _ => rfl, fun _ _ => rfl, fun _ _ => rfl, fun _ _ => rfl⟩

end Fintribe
